import Mathlib

/-!
# Gym booking backend — shallow embedding

This file embeds the booking-consistency core of the gym backend:
membership creation (`createUserMembership`), class booking (`bookClass`),
booking cancellation (`cancelClassBooking`), personal-training booking
(`bookPersonalTraining`) and the trainer availability calculator
(`getTrainerAvailability`), together with proofs of the spec's claims
about them.

Modelling conventions:
* The relational store is a `GymState` of lists, one per table; a drizzle
  `select().where(and(eq ..))` becomes `List.filter` of the decidable
  conjunction and `length === 0` / `[0]` become `List.isEmpty` / `List.head?`.
* `serial` primary keys become explicit per-table counters; `defaultNow()`
  timestamps read a `now : Nat` field of the state.
* Time-of-day strings ("HH:MM", zero-padded as the spec's transport
  mandates) are embedded as `HHMM` hour/minute pairs; for zero-padded
  strings JavaScript's lexicographic string comparison coincides with
  comparison of minute-of-day values, so every string comparison of the
  source is stated on `HHMM.toMinutes`.
* `numeric` money columns (`hourly_rate`, `price`) are embedded as `ℚ`.
* Descriptive columns no modelled handler reads (names, bios, rooms,
  image urls, …) are not represented.
* Each `throw` site of the handlers becomes one constructor of `GymError`.
-/

namespace Gym

/-- Wall-clock time of day, the parse of a zero-padded 24-hour "HH:MM"
string (the source's `split(':').map(Number)`). -/
structure HHMM where
  hour : Nat
  minute : Nat
  deriving DecidableEq, Repr

/-- Minute of day, `startHour * 60 + startMinute` in the source. -/
def HHMM.toMinutes (t : HHMM) : Nat := t.hour * 60 + t.minute

/-- A calendar date the way JavaScript's `Date` exposes it to
`getMonth`/`setMonth`: `month` is 0-based (0 = January). Years are
restricted to `Nat`, which covers every date the handlers receive. -/
structure JSDate where
  year : Nat
  month : Nat
  day : Nat
  deriving DecidableEq, Repr

/-- Gregorian leap-year rule, as implemented by JavaScript `Date`. -/
def isLeapYear (y : Nat) : Bool :=
  (y % 4 == 0 && y % 100 != 0) || y % 400 == 0

/-- Number of days of month `m` (0-based) of year `y`. -/
def daysInMonth (y : Nat) (m : Nat) : Nat :=
  match m with
  | 0 => 31
  | 1 => if isLeapYear y then 29 else 28
  | 2 => 31
  | 3 => 30
  | 4 => 31
  | 5 => 30
  | 6 => 31
  | 7 => 31
  | 8 => 30
  | 9 => 31
  | 10 => 30
  | _ => 31

/-- JavaScript's `Date.prototype.setMonth m` on a valid date: the month
index `m` (possibly ≥ 12) is normalised into year and month, the
day-of-month is kept, and if the kept day overflows the target month the
date rolls forward into the next month. A valid day-of-month is at most
31 and every month has at least 28 days, so the overflow is at most 3
days and always lands inside the immediately following month. -/
def JSDate.setMonth (dt : JSDate) (m : Nat) : JSDate :=
  let y := dt.year + m / 12
  let m' := m % 12
  if dt.day ≤ daysInMonth y m' then ⟨y, m', dt.day⟩
  else if m' = 11 then ⟨y + 1, 0, dt.day - daysInMonth y m'⟩
  else ⟨y, m' + 1, dt.day - daysInMonth y m'⟩

/-- `membership_status` enum of the schema. -/
inductive MembershipStatus where
  | active
  | expired
  | cancelled
  deriving DecidableEq, Repr

/-- `booking_status` enum of the schema. -/
inductive BookingStatus where
  | confirmed
  | cancelled
  | waitlist
  deriving DecidableEq, Repr

/-- `session_status` enum of the schema. -/
inductive SessionStatus where
  | scheduled
  | completed
  | cancelled
  deriving DecidableEq, Repr

/-- `membership_tiers` row (fields the handlers read). -/
structure MembershipTier where
  id : Nat
  duration_months : Nat
  is_active : Bool
  deriving DecidableEq, Repr

/-- `user_memberships` row. -/
structure UserMembership where
  id : Nat
  user_id : Nat
  membership_tier_id : Nat
  start_date : JSDate
  end_date : JSDate
  status : MembershipStatus
  deriving DecidableEq, Repr

/-- `class_schedules` row (fields the handlers read or write). -/
structure ClassSchedule where
  id : Nat
  available_spots : Int
  is_cancelled : Bool
  deriving DecidableEq, Repr

/-- `class_bookings` row. -/
structure ClassBooking where
  id : Nat
  user_id : Nat
  schedule_id : Nat
  booking_status : BookingStatus
  booked_at : Nat
  cancelled_at : Option Nat
  deriving DecidableEq, Repr

/-- `trainers` row (fields the handlers read). -/
structure Trainer where
  id : Nat
  hourly_rate : ℚ
  is_available : Bool
  deriving DecidableEq, Repr

/-- `personal_training_sessions` row. -/
structure PTSession where
  id : Nat
  user_id : Nat
  trainer_id : Nat
  session_date : Nat
  start_time : HHMM
  end_time : HHMM
  status : SessionStatus
  notes : Option String
  price : ℚ
  deriving DecidableEq, Repr

/-- One constructor per `throw` site of the modelled handlers, plus
`storeError` for a failing store write. The spec's taxonomy maps onto
them as: NotFound = {userNotFound, tierNotFound, scheduleNotFound,
bookingNotFound, trainerNotFound}; InvalidState = {tierNotActive,
bookingAlreadyCancelled, trainerNotAvailable}; Conflict =
{duplicateConfirmedBooking, timeConflict}; InvalidInput =
{endNotAfterStart}; StoreError = {storeError}. -/
inductive GymError where
  | userNotFound
  | tierNotFound
  | tierNotActive
  | scheduleNotFound
  | duplicateConfirmedBooking
  | bookingNotFound
  | bookingAlreadyCancelled
  | trainerNotFound
  | trainerNotAvailable
  | timeConflict
  | endNotAfterStart
  | storeError
  deriving DecidableEq, Repr

deriving instance DecidableEq for Except

/-- The entity store: one list per table, per-table id counters for the
`serial` columns, and the process clock `now` backing `defaultNow()`. -/
structure GymState where
  users : List Nat
  tiers : List MembershipTier
  memberships : List UserMembership
  schedules : List ClassSchedule
  bookings : List ClassBooking
  trainers : List Trainer
  sessions : List PTSession
  nextMembershipId : Nat
  nextBookingId : Nat
  nextSessionId : Nat
  now : Nat
  deriving DecidableEq, Repr

/-- Handler `createUserMembership` (src/unnamed/part_001): verify the
user, verify the tier and its active flag, compute
`endDate.setMonth(endDate.getMonth() + duration_months)` and insert the
membership; the `status` column's database default is `'active'`. -/
def createUserMembership (st : GymState) (user_id membership_tier_id : Nat)
    (start_date : JSDate) : Except GymError (UserMembership × GymState) :=
  if (st.users.filter (fun u => u == user_id)).isEmpty then
    .error .userNotFound
  else
    match (st.tiers.filter (fun t => t.id == membership_tier_id)).head? with
    | none => .error .tierNotFound
    | some membershipTier =>
      if !membershipTier.is_active then .error .tierNotActive
      else
        let endDate := start_date.setMonth
          (start_date.month + membershipTier.duration_months)
        let m : UserMembership :=
          { id := st.nextMembershipId
            user_id := user_id
            membership_tier_id := membership_tier_id
            start_date := start_date
            end_date := endDate
            status := .active }
        .ok (m, { st with
                  memberships := st.memberships ++ [m]
                  nextMembershipId := st.nextMembershipId + 1 })

/-- Handler `bookClass` (src/unnamed/part_002), with the two store
writes made explicit: `insertOk` is whether the booking insert succeeds
and `updateOk` whether the `available_spots` update succeeds; a failing
write raises `storeError` at its point of the sequence, leaving every
write performed so far in place (the source issues the two statements
without a surrounding transaction). The state is returned alongside the
result on every path. -/
def bookClassWrites (st : GymState) (user_id schedule_id : Nat)
    (insertOk updateOk : Bool) : Except GymError ClassBooking × GymState :=
  if (st.users.filter (fun u => u == user_id)).isEmpty then
    (.error .userNotFound, st)
  else
    match (st.schedules.filter (fun sch =>
        decide (sch.id = schedule_id ∧ sch.is_cancelled = false))).head? with
    | none => (.error .scheduleNotFound, st)
    | some classSchedule =>
      let existingBooking := st.bookings.filter (fun b =>
        decide (b.user_id = user_id ∧ b.schedule_id = schedule_id ∧
          b.booking_status = BookingStatus.confirmed))
      if existingBooking.length > 0 then (.error .duplicateConfirmedBooking, st)
      else
        let bookingStatus : BookingStatus :=
          if classSchedule.available_spots ≤ 0 then .waitlist else .confirmed
        if !insertOk then (.error .storeError, st)
        else
          let newBooking : ClassBooking :=
            { id := st.nextBookingId
              user_id := user_id
              schedule_id := schedule_id
              booking_status := bookingStatus
              booked_at := st.now
              cancelled_at := none }
          let st1 := { st with
                       bookings := st.bookings ++ [newBooking]
                       nextBookingId := st.nextBookingId + 1 }
          if bookingStatus = BookingStatus.confirmed then
            if !updateOk then (.error .storeError, st1)
            else
              (.ok newBooking,
               { st1 with schedules := st1.schedules.map (fun sch =>
                   if sch.id = schedule_id then
                     { sch with available_spots := classSchedule.available_spots - 1 }
                   else sch) })
          else (.ok newBooking, st1)

/-- `bookClass` when both store writes succeed. -/
def bookClass (st : GymState) (user_id schedule_id : Nat) :
    Except GymError ClassBooking × GymState :=
  bookClassWrites st user_id schedule_id true true

/-- Handler `cancelClassBooking` (src/unnamed/part_005): look up the
booking by id *and* owner, reject a missing/foreign booking and an
already-cancelled one, otherwise set `booking_status := cancelled` and
`cancelled_at := now` on the rows matching id and owner and return the
updated booking. -/
def cancelClassBooking (st : GymState) (booking_id user_id : Nat) :
    Except GymError (ClassBooking × GymState) :=
  let existingBooking := st.bookings.filter (fun b =>
    decide (b.id = booking_id ∧ b.user_id = user_id))
  match existingBooking.head? with
  | none => .error .bookingNotFound
  | some b0 =>
    if b0.booking_status = BookingStatus.cancelled then
      .error .bookingAlreadyCancelled
    else
      .ok ({ b0 with
             booking_status := BookingStatus.cancelled
             cancelled_at := some st.now },
           { st with bookings := st.bookings.map (fun b =>
               if b.id = booking_id ∧ b.user_id = user_id then
                 { b with
                   booking_status := BookingStatus.cancelled
                   cancelled_at := some st.now }
               else b) })

/-- Handler `bookPersonalTraining`
(src/server/src/handlers/book_personal_training.ts), checks in source
order: user exists, trainer exists, trainer available, overlap conflict
against scheduled sessions of the same trainer and date, and only then
positive duration; price is `hourly_rate * (minute difference / 60)` and
a falsy `notes` value (`input.notes || null`) is stored as `null`. -/
def bookPersonalTraining (st : GymState) (user_id trainer_id session_date : Nat)
    (start_time end_time : HHMM) (notes : Option String) :
    Except GymError (PTSession × GymState) :=
  if (st.users.filter (fun u => u == user_id)).isEmpty then
    .error .userNotFound
  else
    match (st.trainers.filter (fun t => t.id == trainer_id)).head? with
    | none => .error .trainerNotFound
    | some trainer =>
      if !trainer.is_available then .error .trainerNotAvailable
      else
        let conflictingSessions := st.sessions.filter (fun s =>
          decide (s.trainer_id = trainer_id ∧ s.session_date = session_date ∧
            s.status = SessionStatus.scheduled))
        let hasConflict := conflictingSessions.any (fun s =>
          decide (start_time.toMinutes < s.end_time.toMinutes ∧
            end_time.toMinutes > s.start_time.toMinutes))
        if hasConflict then .error .timeConflict
        else
          let startTotalMinutes := start_time.toMinutes
          let endTotalMinutes := end_time.toMinutes
          let durationHours : ℚ :=
            ((endTotalMinutes : ℚ) - (startTotalMinutes : ℚ)) / 60
          if durationHours ≤ 0 then .error .endNotAfterStart
          else
            let sessionPrice := trainer.hourly_rate * durationHours
            let session : PTSession :=
              { id := st.nextSessionId
                user_id := user_id
                trainer_id := trainer_id
                session_date := session_date
                start_time := start_time
                end_time := end_time
                status := .scheduled
                notes := match notes with
                  | some s => if s = "" then none else some s
                  | none => none
                price := sessionPrice }
            .ok (session, { st with
                            sessions := st.sessions ++ [session]
                            nextSessionId := st.nextSessionId + 1 })

/-- C3's refinement target, written from the spec's words (§4.1):
"end_date = start_date with its month-of-year advanced by
duration_months", and "if the resulting month has fewer days than
start_date's day-of-month, the date rolls forward into the next month".
To be compared with the source-side `JSDate.setMonth`. -/
def advanceCalendarMonths (dt : JSDate) (k : Nat) : JSDate :=
  let total := dt.year * 12 + dt.month + k
  let y := total / 12
  let m := total % 12
  if daysInMonth y m < dt.day then
    ⟨if m = 11 then y + 1 else y, if m = 11 then 0 else m + 1,
     dt.day - daysInMonth y m⟩
  else ⟨y, m, dt.day⟩

/-- The booking status carried by a `bookClass` result. -/
def statusOfResult (r : Except GymError ClassBooking) :
    Except GymError BookingStatus :=
  r.map (fun b => b.booking_status)

/-- A sequence of `bookClass` calls for one schedule, one call per listed
user, each executed against the state the previous call produced;
returns the per-call results in order together with the final state. -/
def bookSeq (schedule_id : Nat) : GymState → List Nat →
    List (Except GymError ClassBooking) × GymState
  | st, [] => ([], st)
  | st, u :: us =>
    let p := bookClass st u schedule_id
    let q := bookSeq schedule_id p.2 us
    (p.1 :: q.1, q.2)

/-- The invariant of C6: no two booking rows of the table agree on
(user_id, schedule_id) while both have status `confirmed`. -/
def confirmedUnique (bs : List ClassBooking) : Prop :=
  bs.Pairwise (fun a b => ¬(a.user_id = b.user_id ∧
    a.schedule_id = b.schedule_id ∧
    a.booking_status = BookingStatus.confirmed ∧
    b.booking_status = BookingStatus.confirmed))

/-- Concrete store used by the witnesses: three users, one active
12-month tier, one live schedule with 2 spots, one available trainer
(rate 50) and one scheduled session 08:00–12:00 on date 7. -/
def baseState : GymState :=
  { users := [1, 2, 3]
    tiers := [⟨1, 12, true⟩]
    memberships := []
    schedules := [⟨10, 2, false⟩]
    bookings := []
    trainers := [⟨1, 50, true⟩]
    sessions := [⟨100, 2, 1, 7, ⟨8, 0⟩, ⟨12, 0⟩, .scheduled, none, 200⟩]
    nextMembershipId := 1
    nextBookingId := 1
    nextSessionId := 101
    now := 1000 }

/-- `baseState` with two class bookings: a confirmed one owned by user 1
and a waitlisted one owned by user 2. -/
def bookedState : GymState :=
  { baseState with
    bookings := [⟨1, 1, 10, .confirmed, 5, none⟩,
                 ⟨2, 2, 10, .waitlist, 6, none⟩]
    nextBookingId := 3 }

/-- The session `bookPersonalTraining baseState 1 1 8 10:00 11:00 (some "")`
persists: one hour at rate 50, notes coerced to `none`. -/
def c10Session : PTSession :=
  ⟨101, 1, 1, 8, ⟨10, 0⟩, ⟨11, 0⟩, .scheduled, none, 50⟩

/-- The store after persisting `c10Session`. -/
def c10StateAfter : GymState :=
  { baseState with
    sessions := baseState.sessions ++ [c10Session]
    nextSessionId := 102 }

/-- The booking `cancelClassBooking bookedState 1 1` returns. -/
def c8Booking : ClassBooking := ⟨1, 1, 10, .cancelled, 5, some 1000⟩

/-- The store after `cancelClassBooking bookedState 1 1`. -/
def c8StateAfter : GymState :=
  { bookedState with
    bookings := [⟨1, 1, 10, .cancelled, 5, some 1000⟩,
                 ⟨2, 2, 10, .waitlist, 6, none⟩] }

/-- Handler `getTrainerAvailability` (src/unnamed/part_005): verify the
trainer and its availability flag, collect the scheduled sessions of the
trainer on the date, and keep each hourly slot 09:00‥20:00 that does not
satisfy `sessionStart ≤ slot < sessionEnd` for any of them. -/
def getTrainerAvailability (st : GymState) (trainer_id date : Nat) :
    Except GymError (List HHMM) :=
  match (st.trainers.filter (fun t => t.id == trainer_id)).head? with
  | none => .error .trainerNotFound
  | some trainer =>
    if !trainer.is_available then .error .trainerNotAvailable
    else
      let existingSessions := st.sessions.filter (fun s =>
        decide (s.trainer_id = trainer_id ∧ s.session_date = date ∧
          s.status = SessionStatus.scheduled))
      let slots := (List.range 12).map (fun i => HHMM.mk (9 + i) 0)
      .ok (slots.filter (fun slot => !(existingSessions.any (fun s =>
        decide (s.start_time.toMinutes ≤ slot.toMinutes ∧
          slot.toMinutes < s.end_time.toMinutes)))))

/-! ## Helper lemmas -/

/-- The head of a filtered list is a member satisfying the test. -/
theorem head?_filter_some {α : Type} {p : α → Bool} {l : List α} {a : α}
    (h : (l.filter p).head? = some a) : a ∈ l ∧ p a = true := by
  have ha : a ∈ l.filter p := by
    cases hf : l.filter p with
    | nil => rw [hf] at h; simp at h
    | cons x xs => rw [hf] at h; simp at h; simp [hf, h]
  exact List.mem_filter.mp ha

/-- A nonempty list all of whose members are `a` has head `a`. -/
theorem head?_of_all_eq {α : Type} {l : List α} {a : α} (hne : l ≠ [])
    (hall : ∀ x ∈ l, x = a) : l.head? = some a := by
  cases l with
  | nil => exact absurd rfl hne
  | cons x xs => simp [hall x (by simp)]

/-- The source's existence check `select().where(eq(id, u))` + `length === 0`
succeeds exactly on members. -/
theorem userFilter_isEmpty_eq_false {l : List Nat} {u : Nat} (h : u ∈ l) :
    (l.filter (fun x => x == u)).isEmpty = false := by
  rw [Bool.eq_false_iff]
  intro hemp
  have hnil := List.isEmpty_iff.mp hemp
  have := List.filter_eq_nil_iff.mp hnil u h
  simp at this

/-! ## C10 — empty-string notes are stored as null -/

/-- C10: whenever `bookPersonalTraining` succeeds with a falsy supplied
notes value — absent (`none`) or the empty string — the session it
persists and returns has `notes = none`; `input.notes || null` coerces
every falsy value to null. -/
theorem bookPersonalTraining_empty_notes_null (st : GymState)
    (u t d : Nat) (s e : HHMM) (n : Option String)
    (hn : n = none ∨ n = some "") (sess : PTSession) (st' : GymState)
    (h : bookPersonalTraining st u t d s e n = .ok (sess, st')) :
    sess.notes = none ∧ sess ∈ st'.sessions := by
  simp only [bookPersonalTraining] at h
  split at h
  · cases h
  · split at h
    · cases h
    · rename_i trainer heq
      split at h
      · cases h
      · split at h
        · cases h
        · split at h
          · cases h
          · rw [Except.ok.injEq, Prod.mk.injEq] at h
            obtain ⟨h1, h2⟩ := h
            subst h1
            subst h2
            refine ⟨?_, by simp⟩
            rcases hn with rfl | rfl <;> simp

/-- Witness for C10 at `baseState`: booking 10:00–11:00 on a free date
with notes `some ""` stores `notes = none`. -/
theorem bookPersonalTraining_empty_notes_null_witness :
    (some "" = none ∨ some "" = some "") ∧
    (c10Session.notes = none ∧ c10Session ∈ c10StateAfter.sessions) :=
  ⟨Or.inr rfl,
   bookPersonalTraining_empty_notes_null baseState 1 1 8 ⟨10, 0⟩ ⟨11, 0⟩
     (some "") (Or.inr rfl) c10Session c10StateAfter (by
       norm_num [bookPersonalTraining, baseState, c10Session, c10StateAfter,
         HHMM.toMinutes])⟩

/-! ## C4 — degenerate interval: which error fires -/

/-- C4 counterexample: at `baseState` — user 1 exists, trainer 1 exists
and is available — the request 10:00–10:00 on date 7, whose end time is
not strictly after its start time, fails with the Conflict error
`timeConflict` (the scheduled session 08:00–12:00 passes the overlap
test against it), not with the InvalidInput error `endNotAfterStart`:
the handler runs the conflict check before the duration check. -/
theorem bookPersonalTraining_degenerate_conflict_counterexample :
    1 ∈ baseState.users ∧
    (baseState.trainers.filter (fun x => x.id == 1)).head? =
      some ⟨1, 50, true⟩ ∧
    (Trainer.mk 1 50 true).is_available = true ∧
    HHMM.toMinutes ⟨10, 0⟩ ≤ HHMM.toMinutes ⟨10, 0⟩ ∧
    bookPersonalTraining baseState 1 1 7 ⟨10, 0⟩ ⟨10, 0⟩ none =
      .error GymError.timeConflict ∧
    GymError.timeConflict ≠ GymError.endNotAfterStart := by
  norm_num [bookPersonalTraining, baseState, HHMM.toMinutes]
  decide

/-- C4 corrected: with an existing user and an existing available
trainer, a request whose end time is not strictly after its start time
always fails (and persists nothing — every failing branch precedes the
insert), but the error depends on the other sessions of that trainer and
date: `timeConflict` when some scheduled session passes the half-open
overlap test against the degenerate interval, because the source runs
the conflict check first, and `endNotAfterStart` otherwise. -/
theorem bookPersonalTraining_degenerate_rejected (st : GymState)
    (u t d : Nat) (s e : HHMM) (n : Option String) {tr : Trainer}
    (hu : u ∈ st.users)
    (ht : (st.trainers.filter (fun x => x.id == t)).head? = some tr)
    (hav : tr.is_available = true)
    (hse : e.toMinutes ≤ s.toMinutes) :
    ((∃ sess ∈ st.sessions, sess.trainer_id = t ∧ sess.session_date = d ∧
        sess.status = SessionStatus.scheduled ∧
        s.toMinutes < sess.end_time.toMinutes ∧
        e.toMinutes > sess.start_time.toMinutes) →
      bookPersonalTraining st u t d s e n = .error .timeConflict) ∧
    ((¬ ∃ sess ∈ st.sessions, sess.trainer_id = t ∧ sess.session_date = d ∧
        sess.status = SessionStatus.scheduled ∧
        s.toMinutes < sess.end_time.toMinutes ∧
        e.toMinutes > sess.start_time.toMinutes) →
      bookPersonalTraining st u t d s e n = .error .endNotAfterStart) := by
  have hu' := userFilter_isEmpty_eq_false hu
  simp only [bookPersonalTraining, hu', Bool.false_eq_true, if_false, ht,
    hav, Bool.not_true]
  constructor
  · intro hex
    have hcon : (List.any (st.sessions.filter (fun x =>
        decide (x.trainer_id = t ∧ x.session_date = d ∧
          x.status = SessionStatus.scheduled)))
        (fun x => decide (s.toMinutes < x.end_time.toMinutes ∧
          e.toMinutes > x.start_time.toMinutes))) = true := by
      simp only [List.any_eq_true, List.mem_filter, decide_eq_true_eq]
      obtain ⟨sess, hm, h1, h2, h3, h4, h5⟩ := hex
      exact ⟨sess, ⟨hm, h1, h2, h3⟩, h4, h5⟩
    rw [if_pos hcon]
  · intro hnex
    have hcon : (List.any (st.sessions.filter (fun x =>
        decide (x.trainer_id = t ∧ x.session_date = d ∧
          x.status = SessionStatus.scheduled)))
        (fun x => decide (s.toMinutes < x.end_time.toMinutes ∧
          e.toMinutes > x.start_time.toMinutes))) = false := by
      rw [Bool.eq_false_iff]
      intro hc
      apply hnex
      simp only [List.any_eq_true, List.mem_filter, decide_eq_true_eq] at hc
      obtain ⟨sess, ⟨hm, h1, h2, h3⟩, h4, h5⟩ := hc
      exact ⟨sess, hm, h1, h2, h3, h4, h5⟩
    rw [hcon]
    simp only [Bool.false_eq_true, if_false]
    have hd : ((e.toMinutes : ℚ) - (s.toMinutes : ℚ)) / 60 ≤ 0 := by
      have h1 : (e.toMinutes : ℚ) ≤ (s.toMinutes : ℚ) := by exact_mod_cast hse
      linarith
    rw [if_pos hd]

/-- Witness for the corrected C4 at `baseState`, date 8 (no sessions):
the degenerate request 10:00–10:00 fails with `endNotAfterStart` there. -/
theorem bookPersonalTraining_degenerate_rejected_witness :
    1 ∈ baseState.users ∧
    (baseState.trainers.filter (fun x => x.id == 1)).head? =
      some ⟨1, 50, true⟩ ∧
    (Trainer.mk 1 50 true).is_available = true ∧
    HHMM.toMinutes ⟨10, 0⟩ ≤ HHMM.toMinutes ⟨10, 0⟩ ∧
    ((¬ ∃ sess ∈ baseState.sessions, sess.trainer_id = 1 ∧
        sess.session_date = 8 ∧ sess.status = SessionStatus.scheduled ∧
        HHMM.toMinutes ⟨10, 0⟩ < sess.end_time.toMinutes ∧
        HHMM.toMinutes ⟨10, 0⟩ > sess.start_time.toMinutes) →
      bookPersonalTraining baseState 1 1 8 ⟨10, 0⟩ ⟨10, 0⟩ none =
        .error .endNotAfterStart) := by
  refine ⟨by norm_num [baseState], by norm_num [baseState], rfl, le_refl _, ?_⟩
  exact (@bookPersonalTraining_degenerate_rejected baseState 1 1 8 ⟨10, 0⟩
    ⟨10, 0⟩ none ⟨1, 50, true⟩ (by norm_num [baseState])
    (by norm_num [baseState]) rfl (le_refl _)).2

/-! ## C2 — half-open interval conflict detection -/

/-- The handler's `some`-overlap test over the filtered sessions, as an
existential over the raw session table. -/
theorem anyConflict_iff (st : GymState) (t d : Nat) (s e : HHMM) :
    ((st.sessions.filter (fun x =>
        decide (x.trainer_id = t ∧ x.session_date = d ∧
          x.status = SessionStatus.scheduled))).any
      (fun x => decide (s.toMinutes < x.end_time.toMinutes ∧
        e.toMinutes > x.start_time.toMinutes)) = true) ↔
    ∃ sess ∈ st.sessions, sess.trainer_id = t ∧ sess.session_date = d ∧
      sess.status = SessionStatus.scheduled ∧
      s.toMinutes < sess.end_time.toMinutes ∧
      e.toMinutes > sess.start_time.toMinutes := by
  simp only [List.any_eq_true, List.mem_filter, decide_eq_true_eq]
  constructor
  · rintro ⟨x, ⟨hm, h1, h2, h3⟩, h4, h5⟩
    exact ⟨x, hm, h1, h2, h3, h4, h5⟩
  · rintro ⟨x, hm, h1, h2, h3, h4, h5⟩
    exact ⟨x, ⟨hm, h1, h2, h3⟩, h4, h5⟩

/-- C2: for an existing user, an existing available trainer and a
request with end strictly after start, the call fails with Conflict
exactly when some scheduled session of the same trainer and date
satisfies the half-open overlap test `requestedStart < existingEnd ∧
requestedEnd > existingStart`; otherwise it succeeds — in particular
back-to-back sessions sharing an exact boundary do not conflict. -/
theorem bookPersonalTraining_conflict_iff_overlap (st : GymState)
    (u t d : Nat) (s e : HHMM) (n : Option String) {tr : Trainer}
    (hu : u ∈ st.users)
    (ht : (st.trainers.filter (fun x => x.id == t)).head? = some tr)
    (hav : tr.is_available = true)
    (hij : s.toMinutes < e.toMinutes) :
    (bookPersonalTraining st u t d s e n = .error .timeConflict ↔
      ∃ sess ∈ st.sessions, sess.trainer_id = t ∧ sess.session_date = d ∧
        sess.status = SessionStatus.scheduled ∧
        s.toMinutes < sess.end_time.toMinutes ∧
        e.toMinutes > sess.start_time.toMinutes) ∧
    ((¬ ∃ sess ∈ st.sessions, sess.trainer_id = t ∧ sess.session_date = d ∧
        sess.status = SessionStatus.scheduled ∧
        s.toMinutes < sess.end_time.toMinutes ∧
        e.toMinutes > sess.start_time.toMinutes) →
      ∃ sess st', bookPersonalTraining st u t d s e n = .ok (sess, st')) := by
  have hu' := userFilter_isEmpty_eq_false hu
  simp only [bookPersonalTraining, hu', Bool.false_eq_true, if_false, ht,
    hav, Bool.not_true]
  by_cases hc : ((st.sessions.filter (fun x =>
      decide (x.trainer_id = t ∧ x.session_date = d ∧
        x.status = SessionStatus.scheduled))).any
    (fun x => decide (s.toMinutes < x.end_time.toMinutes ∧
      e.toMinutes > x.start_time.toMinutes)) = true)
  · rw [if_pos hc]
    constructor
    · exact ⟨fun _ => (anyConflict_iff st t d s e).mp hc, fun _ => rfl⟩
    · intro hn
      exact absurd ((anyConflict_iff st t d s e).mp hc) hn
  · rw [if_neg hc]
    have hd : ¬(((e.toMinutes : ℚ) - (s.toMinutes : ℚ)) / 60 ≤ 0) := by
      have h1 : (s.toMinutes : ℚ) < (e.toMinutes : ℚ) := by exact_mod_cast hij
      rw [not_le]
      have h2 : (0 : ℚ) < (e.toMinutes : ℚ) - s.toMinutes := by linarith
      exact div_pos h2 (by norm_num)
    rw [if_neg hd]
    constructor
    · constructor
      · intro h
        exact absurd h (by simp)
      · intro hex
        exact absurd ((anyConflict_iff st t d s e).mpr hex) hc
    · intro _
      exact ⟨_, _, rfl⟩

/-- Witness for C2 at `baseState`: with the scheduled session
08:00–12:00 on date 7, the back-to-back request 12:00–13:00 does not
meet the overlap test, so the characterization yields success. -/
theorem bookPersonalTraining_conflict_iff_overlap_witness :
    1 ∈ baseState.users ∧
    (baseState.trainers.filter (fun x => x.id == 1)).head? =
      some ⟨1, 50, true⟩ ∧
    (Trainer.mk 1 50 true).is_available = true ∧
    HHMM.toMinutes ⟨12, 0⟩ < HHMM.toMinutes ⟨13, 0⟩ ∧
    (bookPersonalTraining baseState 1 1 7 ⟨12, 0⟩ ⟨13, 0⟩ none =
        .error .timeConflict ↔
      ∃ sess ∈ baseState.sessions, sess.trainer_id = 1 ∧
        sess.session_date = 7 ∧ sess.status = SessionStatus.scheduled ∧
        HHMM.toMinutes ⟨12, 0⟩ < sess.end_time.toMinutes ∧
        HHMM.toMinutes ⟨13, 0⟩ > sess.start_time.toMinutes) := by
  refine ⟨by norm_num [baseState], by norm_num [baseState], rfl,
    by norm_num [HHMM.toMinutes], ?_⟩
  exact (@bookPersonalTraining_conflict_iff_overlap baseState 1 1 7 ⟨12, 0⟩
    ⟨13, 0⟩ none ⟨1, 50, true⟩ (by norm_num [baseState])
    (by norm_num [baseState]) rfl (by norm_num [HHMM.toMinutes])).1

/-! ## C9 — trainer availability slots -/

/-- C9: for an existing trainer whose availability flag is true,
`getTrainerAvailability` returns a list holding exactly those hourly
slots 09:00‥20:00 not covered (in the half-open sense
`start ≤ slot < end`) by any scheduled session of that trainer on that
date, in strictly ascending order; with no scheduled session on the date
it is exactly the 12 slots. -/
theorem getTrainerAvailability_spec (st : GymState) (t d : Nat)
    {tr : Trainer}
    (ht : (st.trainers.filter (fun x => x.id == t)).head? = some tr)
    (hav : tr.is_available = true) :
    ∃ l, getTrainerAvailability st t d = .ok l ∧
      (∀ slot : HHMM, slot ∈ l ↔
        ((∃ h9 : Nat, 9 ≤ h9 ∧ h9 ≤ 20 ∧ slot = ⟨h9, 0⟩) ∧
         ∀ sess ∈ st.sessions, sess.trainer_id = t → sess.session_date = d →
           sess.status = SessionStatus.scheduled →
           ¬(sess.start_time.toMinutes ≤ slot.toMinutes ∧
             slot.toMinutes < sess.end_time.toMinutes))) ∧
      l.Pairwise (fun a b => a.toMinutes < b.toMinutes) ∧
      ((∀ sess ∈ st.sessions, ¬(sess.trainer_id = t ∧ sess.session_date = d ∧
          sess.status = SessionStatus.scheduled)) →
        l = [⟨9, 0⟩, ⟨10, 0⟩, ⟨11, 0⟩, ⟨12, 0⟩, ⟨13, 0⟩, ⟨14, 0⟩, ⟨15, 0⟩,
             ⟨16, 0⟩, ⟨17, 0⟩, ⟨18, 0⟩, ⟨19, 0⟩, ⟨20, 0⟩]) := by
  simp only [getTrainerAvailability, ht, hav, Bool.not_true,
    Bool.false_eq_true, if_false]
  refine ⟨_, rfl, ?_, ?_, ?_⟩
  · intro slot
    simp only [List.mem_filter, List.mem_map, List.mem_range,
      Bool.not_eq_true', List.any_eq_false, decide_eq_true_eq,
      List.mem_filter]
    constructor
    · rintro ⟨⟨i, hi, rfl⟩, hno⟩
      refine ⟨⟨9 + i, by omega, by omega, rfl⟩, ?_⟩
      intro sess hm h1 h2 h3
      exact hno sess ⟨hm, h1, h2, h3⟩
    · rintro ⟨⟨h9, h91, h92, rfl⟩, hno⟩
      refine ⟨⟨h9 - 9, by omega, by congr 1; omega⟩, ?_⟩
      intro sess hms
      obtain ⟨hm, hdec⟩ := hms
      exact hno sess hm hdec.1 hdec.2.1 hdec.2.2
  · exact List.Pairwise.filter _ (by decide)
  · intro h0
    have hnil : st.sessions.filter (fun s =>
        decide (s.trainer_id = t ∧ s.session_date = d ∧
          s.status = SessionStatus.scheduled)) = [] := by
      rw [List.filter_eq_nil_iff]
      intro x hx
      simp only [decide_eq_true_eq]
      exact h0 x hx
    rw [hnil]
    rfl

/-- Witness for C9 at `baseState` (trainer 1, date 7). -/
theorem getTrainerAvailability_spec_witness :
    (baseState.trainers.filter (fun x => x.id == 1)).head? =
      some ⟨1, 50, true⟩ ∧
    (Trainer.mk 1 50 true).is_available = true ∧
    (∃ l, getTrainerAvailability baseState 1 7 = .ok l ∧
      (∀ slot : HHMM, slot ∈ l ↔
        ((∃ h9 : Nat, 9 ≤ h9 ∧ h9 ≤ 20 ∧ slot = ⟨h9, 0⟩) ∧
         ∀ sess ∈ baseState.sessions, sess.trainer_id = 1 →
           sess.session_date = 7 → sess.status = SessionStatus.scheduled →
           ¬(sess.start_time.toMinutes ≤ slot.toMinutes ∧
             slot.toMinutes < sess.end_time.toMinutes))) ∧
      l.Pairwise (fun a b => a.toMinutes < b.toMinutes) ∧
      ((∀ sess ∈ baseState.sessions, ¬(sess.trainer_id = 1 ∧
          sess.session_date = 7 ∧ sess.status = SessionStatus.scheduled)) →
        l = [⟨9, 0⟩, ⟨10, 0⟩, ⟨11, 0⟩, ⟨12, 0⟩, ⟨13, 0⟩, ⟨14, 0⟩, ⟨15, 0⟩,
             ⟨16, 0⟩, ⟨17, 0⟩, ⟨18, 0⟩, ⟨19, 0⟩, ⟨20, 0⟩])) :=
  ⟨by norm_num [baseState], rfl,
   @getTrainerAvailability_spec baseState 1 7 ⟨1, 50, true⟩
     (by norm_num [baseState]) rfl⟩

/-! ## C3 — membership end date by calendar-month arithmetic -/

/-- The source's `setMonth(getMonth() + k)` computes exactly the spec's
"advance the month-of-year by k, rolling forward on day overflow". -/
theorem setMonth_eq_advance (dt : JSDate) (k : Nat) :
    dt.setMonth (dt.month + k) = advanceCalendarMonths dt k := by
  simp only [JSDate.setMonth, advanceCalendarMonths]
  have hy : dt.year + (dt.month + k) / 12 =
      (dt.year * 12 + dt.month + k) / 12 := by omega
  have hm : (dt.month + k) % 12 = (dt.year * 12 + dt.month + k) % 12 := by
    omega
  rw [hy, hm]
  rcases lt_or_le (daysInMonth ((dt.year * 12 + dt.month + k) / 12)
      ((dt.year * 12 + dt.month + k) % 12)) dt.day with hlt | hle
  · rw [if_neg (by omega), if_pos hlt]
    by_cases h11 : (dt.year * 12 + dt.month + k) % 12 = 11 <;> simp [h11]
  · rw [if_pos hle, if_neg (by omega)]

/-- C3: for an existing user, an existing active tier with duration `d`
months and any start date, `createUserMembership` persists and returns a
membership with status `active` whose end date is the start date
advanced by `d` calendar months with day-of-month rollover on
overflow. -/
theorem createUserMembership_spec (st : GymState) (u tid : Nat)
    (start : JSDate) {tier : MembershipTier}
    (hu : u ∈ st.users)
    (ht : (st.tiers.filter (fun x => x.id == tid)).head? = some tier)
    (hact : tier.is_active = true) :
    ∃ m st', createUserMembership st u tid start = .ok (m, st') ∧
      m.status = MembershipStatus.active ∧ m.user_id = u ∧
      m.membership_tier_id = tid ∧ m.start_date = start ∧
      m.end_date = advanceCalendarMonths start tier.duration_months ∧
      st'.memberships = st.memberships ++ [m] := by
  have hu' := userFilter_isEmpty_eq_false hu
  simp only [createUserMembership, hu', Bool.false_eq_true, if_false, ht,
    hact, Bool.not_true]
  exact ⟨_, _, rfl, rfl, rfl, rfl, rfl,
    setMonth_eq_advance start tier.duration_months, rfl⟩

/-- Witness for C3 at `baseState` with the 12-month tier and start date
2024-02-29 (month index 1): the end date is 2025-03-01 (month index 2),
not 2025-02-28. -/
theorem createUserMembership_spec_witness :
    1 ∈ baseState.users ∧
    (baseState.tiers.filter (fun x => x.id == 1)).head? =
      some ⟨1, 12, true⟩ ∧
    (MembershipTier.mk 1 12 true).is_active = true ∧
    advanceCalendarMonths ⟨2024, 1, 29⟩ 12 = ⟨2025, 2, 1⟩ ∧
    (∃ m st', createUserMembership baseState 1 1 ⟨2024, 1, 29⟩ =
        .ok (m, st') ∧
      m.status = MembershipStatus.active ∧ m.user_id = 1 ∧
      m.membership_tier_id = 1 ∧ m.start_date = ⟨2024, 1, 29⟩ ∧
      m.end_date =
        advanceCalendarMonths ⟨2024, 1, 29⟩
          (MembershipTier.mk 1 12 true).duration_months ∧
      st'.memberships = baseState.memberships ++ [m]) :=
  ⟨by decide, by decide, rfl, by decide,
   @createUserMembership_spec baseState 1 1 ⟨2024, 1, 29⟩ ⟨1, 12, true⟩
     (by decide) (by decide) rfl⟩

/-! ## C5 — the insert/decrement pair is not atomic -/

/-- C5: the source issues the booking insert and the `available_spots`
update as two independent statements with no surrounding transaction;
when the update fails after the insert succeeded, the store is left with
a persisted confirmed booking whose schedule counter was never
decremented — the claimed both-or-neither atomicity fails on that path
(here at `baseState`: user 1 books schedule 10, which has 2 spots). -/
theorem bookClass_partial_write_state :
    (bookClassWrites baseState 1 10 true false).1 =
      .error GymError.storeError ∧
    (bookClassWrites baseState 1 10 true false).2.bookings =
      [⟨1, 1, 10, .confirmed, 1000, none⟩] ∧
    (bookClassWrites baseState 1 10 true false).2.schedules =
      [⟨10, 2, false⟩] := by
  decide

/-! ## C7 — cancelClassBooking error and success characterization -/

/-- C7: `cancelClassBooking` fails with NotFound exactly when no booking
with that id and owner exists; fails with InvalidState exactly when such
a booking exists and is already cancelled; otherwise it returns the
booking updated to cancelled with `cancelled_at = now`, persists it, and
an immediately repeated call fails with InvalidState. Ids are assumed
pairwise distinct, as the `serial` primary key guarantees. -/
theorem cancelClassBooking_spec (st : GymState) (bid uid : Nat)
    (hIds : st.bookings.Pairwise (fun a b => a.id ≠ b.id)) :
    (cancelClassBooking st bid uid = .error .bookingNotFound ↔
      ¬ ∃ b ∈ st.bookings, b.id = bid ∧ b.user_id = uid) ∧
    (cancelClassBooking st bid uid = .error .bookingAlreadyCancelled ↔
      ∃ b ∈ st.bookings, b.id = bid ∧ b.user_id = uid ∧
        b.booking_status = BookingStatus.cancelled) ∧
    (∀ b st', cancelClassBooking st bid uid = .ok (b, st') →
      b.id = bid ∧ b.user_id = uid ∧
      b.booking_status = BookingStatus.cancelled ∧
      b.cancelled_at = some st.now ∧ b ∈ st'.bookings ∧
      cancelClassBooking st' bid uid = .error .bookingAlreadyCancelled) := by
  simp only [cancelClassBooking]
  cases hh : (st.bookings.filter (fun b =>
      decide (b.id = bid ∧ b.user_id = uid))).head? with
  | none =>
    have hnone : ∀ b ∈ st.bookings, ¬(b.id = bid ∧ b.user_id = uid) := by
      have h1 := List.head?_eq_none_iff.mp hh
      have h2 := List.filter_eq_nil_iff.mp h1
      intro b hb
      simpa using h2 b hb
    refine ⟨?_, ?_, ?_⟩
    · exact iff_of_true (by simp [hh])
        (fun ⟨b, hb, h1, h2⟩ => hnone b hb ⟨h1, h2⟩)
    · exact iff_of_false (by simp [hh])
        (fun ⟨b, hb, h1, h2, _⟩ => hnone b hb ⟨h1, h2⟩)
    · intro b st' hok
      simp [hh] at hok
  | some b0 =>
    obtain ⟨hb0mem, hb0p⟩ := head?_filter_some hh
    have hb0 : b0.id = bid ∧ b0.user_id = uid := of_decide_eq_true hb0p
    have hsymm : Symmetric (fun a b : ClassBooking => a.id ≠ b.id) :=
      fun x y hxy h => hxy h.symm
    by_cases hc : b0.booking_status = BookingStatus.cancelled
    · refine ⟨?_, ?_, ?_⟩
      · simp only [hh]
        rw [if_pos hc]
        exact iff_of_false (by simp)
          (fun hnex => hnex ⟨b0, hb0mem, hb0.1, hb0.2⟩)
      · simp only [hh]
        rw [if_pos hc]
        exact iff_of_true rfl ⟨b0, hb0mem, hb0.1, hb0.2, hc⟩
      · intro b st' hok
        simp only [hh] at hok
        rw [if_pos hc] at hok
        exact absurd hok (by simp)
    · simp only [hh]
      rw [if_neg hc]
      refine ⟨?_, ?_, ?_⟩
      · exact iff_of_false (by simp)
          (fun hnex => hnex ⟨b0, hb0mem, hb0.1, hb0.2⟩)
      · refine iff_of_false (by simp) ?_
        rintro ⟨b, hbm, h1, h2, h3⟩
        rcases eq_or_ne b b0 with rfl | hne
        · exact hc h3
        · exact (hIds.forall hsymm hbm hb0mem hne) (h1.trans hb0.1.symm)
      · intro b st' hok
        rw [Except.ok.injEq, Prod.mk.injEq] at hok
        obtain ⟨h1, h2⟩ := hok
        subst h1
        subst h2
        refine ⟨hb0.1, hb0.2, rfl, rfl, ?_, ?_⟩
        · exact List.mem_map.mpr ⟨b0, hb0mem, by rw [if_pos hb0]⟩
        · simp only [cancelClassBooking]
          rw [List.filter_map]
          have hcomp : ((fun bb : ClassBooking =>
              decide (bb.id = bid ∧ bb.user_id = uid)) ∘
              (fun b => if b.id = bid ∧ b.user_id = uid then
                { b with booking_status := BookingStatus.cancelled
                         cancelled_at := some st.now }
              else b)) =
              fun x : ClassBooking =>
                decide (x.id = bid ∧ x.user_id = uid) := by
            funext x
            by_cases hx : x.id = bid ∧ x.user_id = uid <;>
              simp [Function.comp, hx]
          rw [hcomp, List.head?_map, hh]
          rw [Option.map_some', if_pos hb0]
          simp

/-- Witness for C7 at `bookedState`: cancelling booking 1 as user 1
succeeds once and fails with InvalidState when repeated. -/
theorem cancelClassBooking_spec_witness :
    bookedState.bookings.Pairwise (fun a b => a.id ≠ b.id) ∧
    cancelClassBooking bookedState 1 1 = .ok (c8Booking, c8StateAfter) ∧
    (c8Booking.id = 1 ∧ c8Booking.user_id = 1 ∧
     c8Booking.booking_status = BookingStatus.cancelled ∧
     c8Booking.cancelled_at = some bookedState.now ∧
     c8Booking ∈ c8StateAfter.bookings ∧
     cancelClassBooking c8StateAfter 1 1 =
       .error .bookingAlreadyCancelled) := by
  have hEq : cancelClassBooking bookedState 1 1 =
      .ok (c8Booking, c8StateAfter) := by decide
  exact ⟨by decide, hEq,
    (cancelClassBooking_spec bookedState 1 1 (by decide)).2.2
      c8Booking c8StateAfter hEq⟩

/-! ## C8 — cancellation touches only the target booking -/

/-- C8: a successful `cancelClassBooking` leaves every other table of
the store unchanged — in particular no schedule's `available_spots` is
incremented — keeps the booking count, rewrites only the rows matching
the id and owner (changing only their status and `cancelled_at`), and
promotes nothing: every confirmed or waitlisted row of the new store
already existed unchanged in the old one. -/
theorem cancelClassBooking_frame (st : GymState) (bid uid : Nat)
    (b : ClassBooking) (st' : GymState)
    (h : cancelClassBooking st bid uid = .ok (b, st')) :
    st'.users = st.users ∧ st'.tiers = st.tiers ∧
    st'.memberships = st.memberships ∧ st'.schedules = st.schedules ∧
    st'.trainers = st.trainers ∧ st'.sessions = st.sessions ∧
    st'.now = st.now ∧ st'.bookings.length = st.bookings.length ∧
    (∀ x ∈ st.bookings, ¬(x.id = bid ∧ x.user_id = uid) →
      x ∈ st'.bookings) ∧
    (∀ x ∈ st.bookings, (x.id = bid ∧ x.user_id = uid) →
      { x with booking_status := BookingStatus.cancelled
               cancelled_at := some st.now } ∈ st'.bookings) ∧
    (∀ y ∈ st'.bookings, y.booking_status = BookingStatus.confirmed →
      y ∈ st.bookings) ∧
    (∀ y ∈ st'.bookings, y.booking_status = BookingStatus.waitlist →
      y ∈ st.bookings) := by
  simp only [cancelClassBooking] at h
  cases hh : (st.bookings.filter (fun b =>
      decide (b.id = bid ∧ b.user_id = uid))).head? with
  | none =>
    simp only [hh] at h
    exact absurd h (by simp)
  | some b0 =>
    simp only [hh] at h
    by_cases hc : b0.booking_status = BookingStatus.cancelled
    · rw [if_pos hc] at h
      exact absurd h (by simp)
    · rw [if_neg hc] at h
      rw [Except.ok.injEq, Prod.mk.injEq] at h
      obtain ⟨h1, h2⟩ := h
      subst h1
      subst h2
      refine ⟨rfl, rfl, rfl, rfl, rfl, rfl, rfl, by simp, ?_, ?_, ?_, ?_⟩
      · intro x hx hnx
        exact List.mem_map.mpr ⟨x, hx, by rw [if_neg hnx]⟩
      · intro x hx hxm
        exact List.mem_map.mpr ⟨x, hx, by rw [if_pos hxm]⟩
      · intro y hy hconf
        obtain ⟨x, hx, hfx⟩ := List.mem_map.mp hy
        by_cases hxm : x.id = bid ∧ x.user_id = uid
        · rw [if_pos hxm] at hfx
          rw [← hfx] at hconf
          simp at hconf
        · rw [if_neg hxm] at hfx
          rw [← hfx]
          exact hx
      · intro y hy hwait
        obtain ⟨x, hx, hfx⟩ := List.mem_map.mp hy
        by_cases hxm : x.id = bid ∧ x.user_id = uid
        · rw [if_pos hxm] at hfx
          rw [← hfx] at hwait
          simp at hwait
        · rw [if_neg hxm] at hfx
          rw [← hfx]
          exact hx

/-- Witness for C8: the concrete cancellation at `bookedState` leaves
the schedule table (and its 2 remaining spots) untouched and keeps the
waitlisted booking of user 2 as it was. -/
theorem cancelClassBooking_frame_witness :
    cancelClassBooking bookedState 1 1 = .ok (c8Booking, c8StateAfter) ∧
    c8StateAfter.schedules = bookedState.schedules ∧
    c8StateAfter.bookings.length = bookedState.bookings.length := by
  have hEq : cancelClassBooking bookedState 1 1 =
      .ok (c8Booking, c8StateAfter) := by decide
  have hframe := cancelClassBooking_frame bookedState 1 1 c8Booking
    c8StateAfter hEq
  exact ⟨hEq, hframe.2.2.2.1, hframe.2.2.2.2.2.2.2.1⟩

/-! ## C6 — at most one confirmed booking per (user, schedule) -/

/-- Appending a booking keeps `confirmedUnique` when the newcomer, if
confirmed, collides with no existing confirmed row of the same user and
schedule. -/
theorem confirmedUnique_append (bs : List ClassBooking) (nb : ClassBooking)
    (h : confirmedUnique bs)
    (hnb : nb.booking_status = BookingStatus.confirmed →
      ∀ b ∈ bs, ¬(b.user_id = nb.user_id ∧ b.schedule_id = nb.schedule_id ∧
        b.booking_status = BookingStatus.confirmed)) :
    confirmedUnique (bs ++ [nb]) := by
  rw [confirmedUnique, List.pairwise_append]
  refine ⟨h, by simp, ?_⟩
  intro a ha b hb
  rw [List.mem_singleton] at hb
  subst hb
  rintro ⟨h1, h2, h3, h4⟩
  exact hnb h4 a ha ⟨h1, h2, h3⟩

/-- C6: the booking-table operations preserve the invariant that at most
one booking per (user_id, schedule_id) is confirmed: `bookClass`
preserves it on every path (both store-write outcomes included) and
fails with Conflict exactly when a confirmed booking for the pair
already exists; `cancelClassBooking` preserves it; the remaining
mutating operations do not touch the booking table at all. -/
theorem confirmedUnique_preserved (st : GymState)
    (hinv : confirmedUnique st.bookings) :
    (∀ u sid iok uok r st', bookClassWrites st u sid iok uok = (r, st') →
      confirmedUnique st'.bookings) ∧
    (∀ u sid, u ∈ st.users →
      ∀ sch, (st.schedules.filter (fun s =>
          decide (s.id = sid ∧ s.is_cancelled = false))).head? = some sch →
      ((bookClass st u sid).1 = .error .duplicateConfirmedBooking ↔
        ∃ b ∈ st.bookings, b.user_id = u ∧ b.schedule_id = sid ∧
          b.booking_status = BookingStatus.confirmed)) ∧
    (∀ bid uid b st', cancelClassBooking st bid uid = .ok (b, st') →
      confirmedUnique st'.bookings) ∧
    (∀ u t d s e n sess st',
      bookPersonalTraining st u t d s e n = .ok (sess, st') →
      st'.bookings = st.bookings) ∧
    (∀ u tid sd m st', createUserMembership st u tid sd = .ok (m, st') →
      st'.bookings = st.bookings) := by
  refine ⟨?_, ?_, ?_, ?_, ?_⟩
  · intro u sid iok uok r st' h
    simp only [bookClassWrites] at h
    split at h
    · rw [Prod.mk.injEq] at h
      exact h.2 ▸ hinv
    · split at h
      · rw [Prod.mk.injEq] at h
        exact h.2 ▸ hinv
      · rename_i classSchedule heq
        split at h
        · rw [Prod.mk.injEq] at h
          exact h.2 ▸ hinv
        · rename_i hdup
          have hnodup : ∀ b ∈ st.bookings, ¬(b.user_id = u ∧
              b.schedule_id = sid ∧
              b.booking_status = BookingStatus.confirmed) := by
            intro b hb hcontra
            apply hdup
            have : b ∈ st.bookings.filter (fun b =>
                decide (b.user_id = u ∧ b.schedule_id = sid ∧
                  b.booking_status = BookingStatus.confirmed)) :=
              List.mem_filter.mpr ⟨hb, decide_eq_true hcontra⟩
            exact List.length_pos.mpr (List.ne_nil_of_mem this)
          split at h
          · rw [Prod.mk.injEq] at h
            exact h.2 ▸ hinv
          · by_cases hsp : classSchedule.available_spots ≤ 0
            · simp only [if_pos hsp] at h
              simp only [reduceCtorEq, if_false] at h
              rw [Prod.mk.injEq] at h
              refine h.2 ▸ ?_
              exact confirmedUnique_append st.bookings _ hinv
                (fun hst _ _ => by simp at hst)
            · rw [if_neg hsp, if_pos rfl] at h
              split at h
              · rw [Prod.mk.injEq] at h
                refine h.2 ▸ ?_
                exact confirmedUnique_append st.bookings
                  ⟨st.nextBookingId, u, sid, .confirmed, st.now, none⟩ hinv
                  (fun _ => hnodup)
              · rw [Prod.mk.injEq] at h
                refine h.2 ▸ ?_
                exact confirmedUnique_append st.bookings
                  ⟨st.nextBookingId, u, sid, .confirmed, st.now, none⟩ hinv
                  (fun _ => hnodup)
  · intro u sid hu sch hsch
    have hu' := userFilter_isEmpty_eq_false hu
    simp only [bookClass, bookClassWrites, hu', Bool.false_eq_true,
      if_false, hsch]
    by_cases hex : ∃ b ∈ st.bookings, b.user_id = u ∧ b.schedule_id = sid ∧
        b.booking_status = BookingStatus.confirmed
    · obtain ⟨b, hb, hbp⟩ := hex
      have hmem : b ∈ st.bookings.filter (fun b =>
          decide (b.user_id = u ∧ b.schedule_id = sid ∧
            b.booking_status = BookingStatus.confirmed)) :=
        List.mem_filter.mpr ⟨hb, decide_eq_true hbp⟩
      rw [if_pos (List.length_pos.mpr (List.ne_nil_of_mem hmem))]
      exact iff_of_true rfl ⟨b, hb, hbp⟩
    · have hnil : st.bookings.filter (fun b =>
          decide (b.user_id = u ∧ b.schedule_id = sid ∧
            b.booking_status = BookingStatus.confirmed)) = [] :=
        List.filter_eq_nil_iff.mpr
          (fun b hb hd => hex ⟨b, hb, of_decide_eq_true hd⟩)
      rw [hnil]
      refine iff_of_false ?_ hex
      by_cases hsp : sch.available_spots ≤ 0 <;> simp [hsp]
  · intro bid uid b st' h
    simp only [cancelClassBooking] at h
    cases hh : (st.bookings.filter (fun bb =>
        decide (bb.id = bid ∧ bb.user_id = uid))).head? with
    | none =>
      simp only [hh] at h
      exact absurd h (by simp)
    | some b0 =>
      simp only [hh] at h
      by_cases hc : b0.booking_status = BookingStatus.cancelled
      · rw [if_pos hc] at h
        exact absurd h (by simp)
      · rw [if_neg hc] at h
        rw [Except.ok.injEq, Prod.mk.injEq] at h
        refine h.2 ▸ ?_
        rw [confirmedUnique]
        rw [show ({ st with bookings := st.bookings.map (fun b =>
          if b.id = bid ∧ b.user_id = uid then
            { b with booking_status := BookingStatus.cancelled
                     cancelled_at := some st.now }
          else b) } : GymState).bookings = st.bookings.map (fun b =>
          if b.id = bid ∧ b.user_id = uid then
            { b with booking_status := BookingStatus.cancelled
                     cancelled_at := some st.now }
          else b) from rfl]
        rw [List.pairwise_map]
        refine hinv.imp ?_
        intro a c hab hcon
        apply hab
        obtain ⟨h1, h2, h3, h4⟩ := hcon
        have fuser : ∀ x : ClassBooking, ((if x.id = bid ∧ x.user_id = uid
            then { x with booking_status := BookingStatus.cancelled
                          cancelled_at := some st.now }
            else x) : ClassBooking).user_id = x.user_id := by
          intro x
          by_cases hx : x.id = bid ∧ x.user_id = uid <;> simp [hx]
        have fsched : ∀ x : ClassBooking, ((if x.id = bid ∧ x.user_id = uid
            then { x with booking_status := BookingStatus.cancelled
                          cancelled_at := some st.now }
            else x) : ClassBooking).schedule_id = x.schedule_id := by
          intro x
          by_cases hx : x.id = bid ∧ x.user_id = uid <;> simp [hx]
        have fconf : ∀ x : ClassBooking, ((if x.id = bid ∧ x.user_id = uid
            then { x with booking_status := BookingStatus.cancelled
                          cancelled_at := some st.now }
            else x) : ClassBooking).booking_status =
              BookingStatus.confirmed →
            x.booking_status = BookingStatus.confirmed := by
          intro x
          by_cases hx : x.id = bid ∧ x.user_id = uid <;> simp [hx]
        rw [fuser, fuser] at h1
        rw [fsched, fsched] at h2
        exact ⟨h1, h2, fconf a h3, fconf c h4⟩
  · intro u t d s e n sess st' h
    simp only [bookPersonalTraining] at h
    split at h
    · cases h
    · split at h
      · cases h
      · split at h
        · cases h
        · split at h
          · cases h
          · split at h
            · cases h
            · rw [Except.ok.injEq, Prod.mk.injEq] at h
              exact h.2 ▸ rfl
  · intro u tid sd m st' h
    simp only [createUserMembership] at h
    split at h
    · cases h
    · split at h
      · cases h
      · split at h
        · cases h
        · rw [Except.ok.injEq, Prod.mk.injEq] at h
          exact h.2 ▸ rfl

/-- Witness for C6 at `baseState` (empty booking table): after user 1
books schedule 10, the invariant still holds. -/
theorem confirmedUnique_preserved_witness :
    confirmedUnique baseState.bookings ∧
    confirmedUnique (bookClass baseState 1 10).2.bookings :=
  ⟨by simp [confirmedUnique, baseState],
   (confirmedUnique_preserved baseState
       (by simp [confirmedUnique, baseState])).1 1 10 true true
     (bookClass baseState 1 10).1 (bookClass baseState 1 10).2 rfl⟩

/-! ## C1 — seat allocation across a sequence of bookings -/

/-- Rewriting a schedule's spots to their current value is the
identity. -/
theorem schedule_set_spots_self {s : ClassSchedule} {v : Int}
    (hv : s.available_spots = v) :
    ({ s with available_spots := v } : ClassSchedule) = s := by
  cases s
  cases hv
  rfl

/-- One `bookClass` call by an existing user with no prior confirmed
booking, against a live schedule: it confirms and decrements when spots
remain, else waitlists and leaves the schedule table untouched. -/
theorem bookClass_eval (st : GymState) (u sid : Nat)
    (sch0 : ClassSchedule)
    (hu : u ∈ st.users)
    (hsch : (st.schedules.filter (fun s =>
      decide (s.id = sid ∧ s.is_cancelled = false))).head? = some sch0)
    (hnob : ∀ b ∈ st.bookings, ¬(b.user_id = u ∧ b.schedule_id = sid ∧
      b.booking_status = BookingStatus.confirmed)) :
    bookClass st u sid =
      if sch0.available_spots ≤ 0 then
        (Except.ok ⟨st.nextBookingId, u, sid, BookingStatus.waitlist,
           st.now, none⟩,
         { st with
           bookings := st.bookings ++
             [⟨st.nextBookingId, u, sid, BookingStatus.waitlist,
               st.now, none⟩]
           nextBookingId := st.nextBookingId + 1 })
      else
        (Except.ok ⟨st.nextBookingId, u, sid, BookingStatus.confirmed,
           st.now, none⟩,
         { st with
           schedules := st.schedules.map (fun sch =>
             if sch.id = sid then
               { sch with available_spots := sch0.available_spots - 1 }
             else sch)
           bookings := st.bookings ++
             [⟨st.nextBookingId, u, sid, BookingStatus.confirmed,
               st.now, none⟩]
           nextBookingId := st.nextBookingId + 1 }) := by
  have hu' := userFilter_isEmpty_eq_false hu
  have hnil : st.bookings.filter (fun b => decide (b.user_id = u ∧
      b.schedule_id = sid ∧
      b.booking_status = BookingStatus.confirmed)) = [] :=
    List.filter_eq_nil_iff.mpr
      (fun b hb hd => hnob b hb (of_decide_eq_true hd))
  simp only [bookClass, bookClassWrites, hu', Bool.false_eq_true, if_false,
    hsch, hnil, List.length_nil, gt_iff_lt, lt_irrefl, Bool.not_true]
  by_cases hsp : sch0.available_spots ≤ 0 <;> simp [hsp]

/-- C1: a sequence of `bookClass` calls for one live schedule holding
`k` spots, one call per listed user, with the users distinct, existing,
and without prior confirmed bookings for the schedule: every call
succeeds, the results are confirmed for the first `min N k` positions
and waitlisted for the rest, exactly `min N k` results are confirmed,
and the schedule ends with `k - min N k` spots, its other fields
untouched. -/
theorem bookSeq_spec (us : List Nat) (st : GymState) (sid : Nat)
    (sch0 : ClassSchedule) (k : Nat)
    (hnd : us.Nodup)
    (husers : ∀ u ∈ us, u ∈ st.users)
    (hnob : ∀ u ∈ us, ∀ b ∈ st.bookings, ¬(b.user_id = u ∧
      b.schedule_id = sid ∧ b.booking_status = BookingStatus.confirmed))
    (hsch : (st.schedules.filter (fun s =>
      decide (s.id = sid ∧ s.is_cancelled = false))).head? = some sch0)
    (huniq : ∀ s ∈ st.schedules, s.id = sid → s = sch0)
    (hk : sch0.available_spots = (k : Int)) :
    ((bookSeq sid st us).1.map statusOfResult =
      (List.range us.length).map (fun i =>
        Except.ok (if i < k then BookingStatus.confirmed
                   else BookingStatus.waitlist))) ∧
    ((bookSeq sid st us).1.countP (fun r =>
        decide (statusOfResult r = Except.ok BookingStatus.confirmed)) =
      min us.length k) ∧
    ((bookSeq sid st us).2.schedules.filter (fun s =>
      decide (s.id = sid ∧ s.is_cancelled = false))).head? =
      some { sch0 with
             available_spots := (k : Int) - ((min us.length k : Nat) : Int) } := by
  induction us generalizing st sch0 k with
  | nil =>
    refine ⟨by simp [bookSeq], by simp [bookSeq], ?_⟩
    have hval : ((k : Int) -
        ((min (List.length ([] : List Nat)) k : Nat) : Int)) =
        sch0.available_spots := by
      rw [hk]
      simp
    simp only [bookSeq, hval, schedule_set_spots_self rfl]
    exact hsch
  | cons u us ih =>
    obtain ⟨hu_notin, hnd'⟩ := List.nodup_cons.mp hnd
    have hs0 := of_decide_eq_true (head?_filter_some hsch).2
    have hs0mem := (head?_filter_some hsch).1
    have hstep := bookClass_eval st u sid sch0
      (husers u (List.mem_cons_self u us)) hsch
      (hnob u (List.mem_cons_self u us))
    rcases k with _ | j
    · have hsp : sch0.available_spots ≤ 0 := by
        rw [hk]
        simp
      rw [if_pos hsp] at hstep
      have hb1 : (bookClass st u sid).1 =
          Except.ok ⟨st.nextBookingId, u, sid, BookingStatus.waitlist,
            st.now, none⟩ := by
        rw [hstep]
      have husers2 : ∀ x ∈ us, x ∈ (bookClass st u sid).2.users := by
        rw [hstep]
        intro x hx
        exact husers x (List.mem_cons_of_mem u hx)
      have hnob2 : ∀ x ∈ us, ∀ b ∈ (bookClass st u sid).2.bookings,
          ¬(b.user_id = x ∧ b.schedule_id = sid ∧
            b.booking_status = BookingStatus.confirmed) := by
        rw [hstep]
        intro x hx b hb
        rcases List.mem_append.mp hb with hold | hnew
        · exact hnob x (List.mem_cons_of_mem u hx) b hold
        · rw [List.mem_singleton] at hnew
          subst hnew
          rintro ⟨-, -, hcontra⟩
          cases hcontra
      have hsch2 : ((bookClass st u sid).2.schedules.filter (fun s =>
          decide (s.id = sid ∧ s.is_cancelled = false))).head? =
          some sch0 := by
        rw [hstep]
        exact hsch
      have huniq2 : ∀ s ∈ (bookClass st u sid).2.schedules,
          s.id = sid → s = sch0 := by
        rw [hstep]
        exact huniq
      obtain ⟨ih1, ih2, ih3⟩ := ih (bookClass st u sid).2 sch0 0
        hnd' husers2 hnob2 hsch2 huniq2 hk
      refine ⟨?_, ?_, ?_⟩
      · simp only [bookSeq, List.map_cons, hb1]
        rw [show statusOfResult (Except.ok
          (⟨st.nextBookingId, u, sid, BookingStatus.waitlist,
            st.now, none⟩ : ClassBooking)) =
          Except.ok BookingStatus.waitlist from rfl]
        rw [ih1, List.length_cons, List.range_succ_eq_map, List.map_cons,
          List.map_map]
        congr 1
      · simp only [bookSeq, List.countP_cons, hb1, ih2]
        simp [statusOfResult, Except.map]
      · simp only [bookSeq]
        rw [ih3]
        simp
    · have hsp : ¬(sch0.available_spots ≤ 0) := by
        rw [hk]
        exact not_le.mpr (by exact_mod_cast Nat.succ_pos j)
      rw [if_neg hsp] at hstep
      have hb1 : (bookClass st u sid).1 =
          Except.ok ⟨st.nextBookingId, u, sid, BookingStatus.confirmed,
            st.now, none⟩ := by
        rw [hstep]
      have hk1 : ({ sch0 with
          available_spots := sch0.available_spots - 1 } :
            ClassSchedule).available_spots = (j : Int) := by
        show sch0.available_spots - 1 = (j : Int)
        rw [hk]
        push_cast
        ring
      have hall : ∀ x ∈ (bookClass st u sid).2.schedules, x.id = sid →
          x = { sch0 with
                available_spots := sch0.available_spots - 1 } := by
        rw [hstep]
        intro x hx hxid
        obtain ⟨y, hy, hgy⟩ := List.mem_map.mp hx
        by_cases hyid : y.id = sid
        · have hysch0 : y = sch0 := huniq y hy hyid
          subst hysch0
          rw [if_pos hyid] at hgy
          exact hgy.symm
        · rw [if_neg hyid] at hgy
          rw [← hgy] at hxid
          exact absurd hxid hyid
      have hmem1 : ({ sch0 with
          available_spots := sch0.available_spots - 1 } : ClassSchedule) ∈
          (bookClass st u sid).2.schedules := by
        rw [hstep]
        exact List.mem_map.mpr ⟨sch0, hs0mem, by rw [if_pos hs0.1]⟩
      have hsch2 : ((bookClass st u sid).2.schedules.filter (fun s =>
          decide (s.id = sid ∧ s.is_cancelled = false))).head? =
          some { sch0 with
                 available_spots := sch0.available_spots - 1 } := by
        apply head?_of_all_eq
        · exact List.ne_nil_of_mem (List.mem_filter.mpr
            ⟨hmem1, decide_eq_true ⟨hs0.1, hs0.2⟩⟩)
        · intro x hx
          obtain ⟨hxm, hxp⟩ := List.mem_filter.mp hx
          exact hall x hxm (of_decide_eq_true hxp).1
      have husers2 : ∀ x ∈ us, x ∈ (bookClass st u sid).2.users := by
        rw [hstep]
        intro x hx
        exact husers x (List.mem_cons_of_mem u hx)
      have hnob2 : ∀ x ∈ us, ∀ b ∈ (bookClass st u sid).2.bookings,
          ¬(b.user_id = x ∧ b.schedule_id = sid ∧
            b.booking_status = BookingStatus.confirmed) := by
        rw [hstep]
        intro x hx b hb
        rcases List.mem_append.mp hb with hold | hnew
        · exact hnob x (List.mem_cons_of_mem u hx) b hold
        · rw [List.mem_singleton] at hnew
          subst hnew
          rintro ⟨h1, -, -⟩
          rw [show (⟨st.nextBookingId, u, sid, BookingStatus.confirmed,
            st.now, none⟩ : ClassBooking).user_id = u from rfl] at h1
          rw [h1] at hu_notin
          exact hu_notin hx
      obtain ⟨ih1, ih2, ih3⟩ := ih (bookClass st u sid).2
        { sch0 with available_spots := sch0.available_spots - 1 } j
        hnd' husers2 hnob2 hsch2 hall hk1
      refine ⟨?_, ?_, ?_⟩
      · simp only [bookSeq, List.map_cons, hb1]
        rw [show statusOfResult (Except.ok
          (⟨st.nextBookingId, u, sid, BookingStatus.confirmed,
            st.now, none⟩ : ClassBooking)) =
          Except.ok BookingStatus.confirmed from rfl]
        rw [ih1, List.length_cons, List.range_succ_eq_map, List.map_cons,
          List.map_map]
        congr 1
        · simp
        · apply List.map_congr_left
          intro i hi
          by_cases hij : i < j <;>
            simp [Function.comp, hij, Nat.succ_lt_succ_iff]
      · simp only [bookSeq, List.countP_cons, hb1, ih2]
        simp only [statusOfResult, Except.map, List.length_cons]
        norm_num
        omega
      · simp only [bookSeq]
        rw [ih3]
        have hval : (j : Int) - ((min us.length j : Nat) : Int) =
            (((j + 1 : Nat)) : Int) -
              ((min (us.length + 1) (j + 1) : Nat) : Int) := by
          omega
        rw [List.length_cons, ← hval]


/-- Witness for C1 at `baseState`: users 1, 2, 3 book schedule 10, which
has 2 spots — the results are confirmed, confirmed, waitlist and the
schedule ends with 0 spots. -/
theorem bookSeq_spec_witness :
    ([1, 2, 3] : List Nat).Nodup ∧
    (baseState.schedules.filter (fun s =>
      decide (s.id = 10 ∧ s.is_cancelled = false))).head? =
      some ⟨10, 2, false⟩ ∧
    ((bookSeq 10 baseState [1, 2, 3]).1.map statusOfResult =
      (List.range 3).map (fun i =>
        Except.ok (if i < 2 then BookingStatus.confirmed
                   else BookingStatus.waitlist))) ∧
    ((bookSeq 10 baseState [1, 2, 3]).1.countP (fun r =>
        decide (statusOfResult r = Except.ok BookingStatus.confirmed)) =
      min 3 2) ∧
    ((bookSeq 10 baseState [1, 2, 3]).2.schedules.filter (fun s =>
      decide (s.id = 10 ∧ s.is_cancelled = false))).head? =
      some ⟨10, (2 : Int) - ((min 3 2 : Nat) : Int), false⟩ := by
  have h := bookSeq_spec [1, 2, 3] baseState 10 ⟨10, 2, false⟩ 2
    (by decide) (by decide) (by decide) (by decide) (by decide) (by decide)
  exact ⟨by decide, by decide, h.1, h.2.1, h.2.2⟩

end Gym
